import Mathlib

/-!
Verification of the road-network simulation.

This file gives a shallow embedding of the core of the repository
(modules/roadnetworkgenerator.py, modules/road.py, modules/intersection.py,
modules/map_manager.py) and proves properties about it.

Part 1 (`Net` namespace) embeds the graph construction and validation code of
`AsymmetricRoadNetwork` / `CustomRoadNetwork` over exact integer lattice
coordinates.  Python dictionaries are modelled as insertion-ordered
association lists, matching the iteration-order semantics of `dict`.

Part 2 (`Sim` namespace) embeds the per-tick movement of `MapManager` and the
admission control of `Intersection` over the real numbers, with the Euclidean
norm of `numpy.linalg.norm` written out as `Real.sqrt`.
-/

namespace Net

/-- Lattice node, mirroring `Node = Tuple[int,int]` from custom_types. -/
abbrev Node := ℤ × ℤ

/-- Cardinal unit vector; for axis-aligned segments the float unit vector
computed by `get_unit_vector` is exactly `(sign dx, sign dy)`. -/
abbrev Dir := ℤ × ℤ

/-- Directed segment `(startnode, endnode)`. -/
abbrev Segment := Node × Node

/-- Failure conditions raised by `_add_segment` (as `ValueError` in Python). -/
inductive AddError where
  | nullVector
  | diagonal
  | duplicateEdge
deriving DecidableEq, Repr

/-- Embeds `AsymmetricRoadNetwork.get_unit_vector`: rejects the null vector,
then diagonal segments, and otherwise returns the (cardinal) unit vector
`vector / norm = (sign dx, sign dy)`. -/
def get_unit_vector (s : Segment) : Except AddError Dir :=
  let dx := s.2.1 - s.1.1
  let dy := s.2.2 - s.1.2
  if dx = 0 ∧ dy = 0 then .error .nullVector
  else if dx ≠ 0 ∧ dy ≠ 0 then .error .diagonal
  else .ok (Int.sign dx, Int.sign dy)

/-- State of an `AsymmetricRoadNetwork`: the `outgoing` dict
(`Node -> List[(Unit_Vector, Node)]`) and the `incoming` dict
(`Node -> List[Node]`), both as insertion-ordered association lists. -/
structure Network where
  outgoing : List (Node × List (Dir × Node))
  incoming : List (Node × List Node)
deriving DecidableEq, Repr

/-- First-match association-list lookup, the analogue of a `dict` access. -/
def assocFind {β : Type} : List (Node × β) → Node → Option β
  | [], _ => none
  | p :: rest, n => if p.1 = n then some p.2 else assocFind rest n

/-- Outgoing adjacency of a node; `[]` when absent, like `dict.get(n, [])`. -/
def lookupOut (net : Network) (n : Node) : List (Dir × Node) :=
  (assocFind net.outgoing n).getD []

/-- Incoming adjacency of a node; `[]` when absent, like `dict.get(n, [])`. -/
def lookupIn (net : Network) (n : Node) : List Node :=
  (assocFind net.incoming n).getD []

/-- Keys of an association list, in insertion order. -/
def keys {β : Type} (l : List (Node × β)) : List Node := l.map Prod.fst

/-- Embeds `_ensure_node_in_network`: inserts `n` with empty adjacency into
each of the two dicts in which it is not yet a key. -/
def ensure_node (net : Network) (n : Node) : Network :=
  { outgoing :=
      if net.outgoing.any (fun p => decide (p.1 = n)) then net.outgoing
      else net.outgoing ++ [(n, [])]
    incoming :=
      if net.incoming.any (fun p => decide (p.1 = n)) then net.incoming
      else net.incoming ++ [(n, [])] }

/-- Embeds the test of `_ensure_asymmetric_road`: true when the same direction
already departs the start node, or the inverse direction already departs the
end node. -/
def asym_violated (net : Network) (startnode endnode : Node) (d : Dir) : Bool :=
  (lookupOut net startnode).any (fun e => decide (e.1 = d)) ||
  (lookupOut net endnode).any (fun e => decide (e.1 = (-d.1, -d.2)))

/-- Appends an edge to the (first) entry of the given key, mirroring
`self.outgoing[startnode].append((direction, endnode))`. -/
def update_out : List (Node × List (Dir × Node)) → Node → (Dir × Node) →
    List (Node × List (Dir × Node))
  | [], _, _ => []
  | p :: rest, n, e =>
      if p.1 = n then (p.1, p.2 ++ [e]) :: rest else p :: update_out rest n e

/-- Appends a predecessor to the (first) entry of the given key, mirroring
`self.incoming[endnode].append(startnode)`. -/
def update_in : List (Node × List Node) → Node → Node → List (Node × List Node)
  | [], _, _ => []
  | p :: rest, n, m =>
      if p.1 = n then (p.1, p.2 ++ [m]) :: rest else p :: update_in rest n m

/-- Embeds `_add_segment`, including its exception-with-state behaviour: the
unit vector is computed first (raising before any mutation), then both
endpoints are ensured as keys, then the asymmetry check may raise — leaving
the freshly ensured keys behind — and only then is the edge appended to both
dicts.  Returns the state after the call together with the raised error, if
any. -/
def add_segment (net : Network) (s : Segment) : Network × Option AddError :=
  match get_unit_vector s with
  | .error e => (net, some e)
  | .ok d =>
      let net1 := ensure_node (ensure_node net s.1) s.2
      if asym_violated net1 s.1 s.2 d then
        (net1, some .duplicateEdge)
      else
        ({ outgoing := update_out net1.outgoing s.1 (d, s.2)
           incoming := update_in net1.incoming s.2 s.1 }, none)

/-- Segment list of an `outgoing` dict, in key order, mirroring the nested
loop of `convert_to_segments`. -/
def convert_out : List (Node × List (Dir × Node)) → List Segment
  | [] => []
  | p :: rest => p.2.map (fun e => (p.1, e.2)) ++ convert_out rest

/-- Embeds `AsymmetricRoadNetwork.convert_to_segments`. -/
def convert_to_segments (net : Network) : List Segment := convert_out net.outgoing

/-- Embeds `CustomRoadNetwork._generate_roads`: adds the segments in order,
aborting on the first raised error. -/
def build_aux (net : Network) : List Segment → Option Network
  | [] => some net
  | s :: rest =>
      match add_segment net s with
      | (net', none) => build_aux net' rest
      | (_, some _) => none

/-- Builds a network from an explicit segment list, starting from the empty
state produced by `AsymmetricRoadNetwork.__init__`. -/
def build_network (segs : List Segment) : Option Network :=
  build_aux { outgoing := [], incoming := [] } segs

/-- Embeds the entry-gate computation of `_generate_gates`: keys of `outgoing`
with exactly one outgoing edge and no incoming edge. -/
def entry_gates (net : Network) : List Node :=
  (keys net.outgoing).filter
    (fun n => decide ((lookupOut net n).length = 1) &&
              decide ((lookupIn net n).length = 0))

/-- Embeds the exit-gate computation of `_generate_gates`: keys of `incoming`
with exactly one incoming edge and no outgoing edge. -/
def exit_gates (net : Network) : List Node :=
  (keys net.incoming).filter
    (fun n => decide ((lookupIn net n).length = 1) &&
              decide ((lookupOut net n).length = 0))

end Net

namespace Net

lemma assocFind_eq_none_of_not_mem {β : Type} :
    ∀ (l : List (Node × β)) (n : Node), n ∉ keys l → assocFind l n = none
  | [], _, _ => rfl
  | p :: rest, n, h => by
      have h1 : ¬ p.1 = n := by
        intro hp
        exact h (by simp [keys, hp])
      have h2 : n ∉ keys rest := by
        intro hm
        apply h
        simp only [keys, List.map_cons, List.mem_cons]
        exact Or.inr (by simpa [keys] using hm)
      simp [assocFind, h1, assocFind_eq_none_of_not_mem rest n h2]

lemma mem_keys_of_assocFind_eq_some {β : Type} :
    ∀ (l : List (Node × β)) (n : Node) (v : β),
      assocFind l n = some v → n ∈ keys l
  | [], n, v, h => by simp [assocFind] at h
  | p :: rest, n, v, h => by
      by_cases hp : p.1 = n
      · simp [keys, hp.symm]
      · simp only [assocFind, if_neg hp] at h
        simp only [keys, List.map_cons, List.mem_cons]
        exact Or.inr (by simpa [keys] using mem_keys_of_assocFind_eq_some rest n v h)

lemma lookupOut_eq_nil_of_not_mem {net : Network} {n : Node}
    (h : n ∉ keys net.outgoing) : lookupOut net n = [] := by
  simp [lookupOut, assocFind_eq_none_of_not_mem _ _ h]

lemma lookupIn_eq_nil_of_not_mem {net : Network} {n : Node}
    (h : n ∉ keys net.incoming) : lookupIn net n = [] := by
  simp [lookupIn, assocFind_eq_none_of_not_mem _ _ h]

lemma mem_keys_out_of_lookup_ne_nil {net : Network} {n : Node}
    (h : lookupOut net n ≠ []) : n ∈ keys net.outgoing := by
  by_contra hc
  exact h (lookupOut_eq_nil_of_not_mem hc)

lemma mem_keys_in_of_lookup_ne_nil {net : Network} {n : Node}
    (h : lookupIn net n ≠ []) : n ∈ keys net.incoming := by
  by_contra hc
  exact h (lookupIn_eq_nil_of_not_mem hc)

lemma assocFind_append_singleton {β : Type} :
    ∀ (l : List (Node × β)) (m n : Node) (v : β),
      assocFind (l ++ [(m, v)]) n =
        match assocFind l n with
        | some w => some w
        | none => if m = n then some v else none
  | [], m, n, v => rfl
  | p :: rest, m, n, v => by
      by_cases hp : p.1 = n
      · simp [assocFind, hp]
      · simpa [assocFind, hp] using assocFind_append_singleton rest m n v

lemma any_key_iff {β : Type} (l : List (Node × β)) (n : Node) :
    l.any (fun p => decide (p.1 = n)) = true ↔ n ∈ keys l := by
  simp only [List.any_eq_true, decide_eq_true_eq, keys, List.mem_map]

lemma lookupOut_ensure_node (net : Network) (m n : Node) :
    lookupOut (ensure_node net m) n = lookupOut net n := by
  simp only [lookupOut, ensure_node]
  by_cases h : net.outgoing.any (fun p => decide (p.1 = m)) = true
  · rw [if_pos h]
  · rw [if_neg h, assocFind_append_singleton]
    rcases hf : assocFind net.outgoing n with _ | w
    · by_cases hmn : m = n <;> simp [hmn]
    · simp

lemma lookupIn_ensure_node (net : Network) (m n : Node) :
    lookupIn (ensure_node net m) n = lookupIn net n := by
  simp only [lookupIn, ensure_node]
  by_cases h : net.incoming.any (fun p => decide (p.1 = m)) = true
  · rw [if_pos h]
  · rw [if_neg h, assocFind_append_singleton]
    rcases hf : assocFind net.incoming n with _ | w
    · by_cases hmn : m = n <;> simp [hmn]
    · simp

lemma keys_append_singleton {β : Type} (l : List (Node × β)) (m : Node) (v : β)
    (n : Node) : n ∈ keys (l ++ [(m, v)]) ↔ n ∈ keys l ∨ n = m := by
  simp [keys, List.mem_append]

lemma keys_out_ensure_node (net : Network) (m n : Node) :
    n ∈ keys (ensure_node net m).outgoing ↔ n ∈ keys net.outgoing ∨ n = m := by
  simp only [ensure_node]
  by_cases h : net.outgoing.any (fun p => decide (p.1 = m)) = true
  · rw [if_pos h]
    have hm : m ∈ keys net.outgoing := (any_key_iff _ _).mp h
    exact ⟨Or.inl, fun hc => hc.elim id (fun e => e ▸ hm)⟩
  · rw [if_neg h]
    exact keys_append_singleton _ _ _ _

lemma keys_in_ensure_node (net : Network) (m n : Node) :
    n ∈ keys (ensure_node net m).incoming ↔ n ∈ keys net.incoming ∨ n = m := by
  simp only [ensure_node]
  by_cases h : net.incoming.any (fun p => decide (p.1 = m)) = true
  · rw [if_pos h]
    have hm : m ∈ keys net.incoming := (any_key_iff _ _).mp h
    exact ⟨Or.inl, fun hc => hc.elim id (fun e => e ▸ hm)⟩
  · rw [if_neg h]
    exact keys_append_singleton _ _ _ _

end Net

namespace Net

lemma get_unit_vector_reverse {a b : Node} {d : Dir}
    (h : get_unit_vector (a, b) = .ok d) :
    get_unit_vector (b, a) = .ok (-d.1, -d.2) := by
  unfold get_unit_vector at h
  by_cases h0 : b.1 - a.1 = 0 ∧ b.2 - a.2 = 0
  · rw [if_pos h0] at h
    exact absurd h (by simp)
  · rw [if_neg h0] at h
    by_cases h1 : b.1 - a.1 ≠ 0 ∧ b.2 - a.2 ≠ 0
    · rw [if_pos h1] at h
      exact absurd h (by simp)
    · rw [if_neg h1] at h
      have hd : d = (Int.sign (b.1 - a.1), Int.sign (b.2 - a.2)) := by
        simpa using h.symm
      have c0 : ¬ (a.1 - b.1 = 0 ∧ a.2 - b.2 = 0) := by
        intro hc
        exact h0 ⟨by omega, by omega⟩
      have c1 : ¬ (a.1 - b.1 ≠ 0 ∧ a.2 - b.2 ≠ 0) := by
        intro hc
        exact h1 ⟨by omega, by omega⟩
      show (if a.1 - b.1 = 0 ∧ a.2 - b.2 = 0 then Except.error AddError.nullVector
            else if a.1 - b.1 ≠ 0 ∧ a.2 - b.2 ≠ 0 then Except.error AddError.diagonal
            else Except.ok (Int.sign (a.1 - b.1), Int.sign (a.2 - b.2))) =
          Except.ok (-d.1, -d.2)
      rw [if_neg c0, if_neg c1]
      have e1 : a.1 - b.1 = -(b.1 - a.1) := by ring
      have e2 : a.2 - b.2 = -(b.2 - a.2) := by ring
      rw [e1, e2, Int.sign_neg, Int.sign_neg, hd]

lemma lookupOut_double_ensure (net : Network) (x y n : Node) :
    lookupOut (ensure_node (ensure_node net x) y) n = lookupOut net n := by
  rw [lookupOut_ensure_node, lookupOut_ensure_node]

/-- C7: adding a directed segment that is already present in the graph, or the
exact reverse of a present segment, always fails with the duplicate-edge
(asymmetry) error. -/
theorem add_duplicate_or_reverse_fails (net : Network) (a b : Node) (d : Dir)
    (hd : get_unit_vector (a, b) = .ok d)
    (hmem : (d, b) ∈ lookupOut net a) :
    (add_segment net (a, b)).2 = some AddError.duplicateEdge ∧
    (add_segment net (b, a)).2 = some AddError.duplicateEdge := by
  constructor
  · unfold add_segment
    rw [hd]
    have hviol : asym_violated (ensure_node (ensure_node net a) b) a b d = true := by
      unfold asym_violated
      rw [Bool.or_eq_true]
      left
      rw [lookupOut_double_ensure]
      simp only [List.any_eq_true, decide_eq_true_eq]
      exact ⟨(d, b), hmem, rfl⟩
    simp [hviol]
  · unfold add_segment
    rw [get_unit_vector_reverse hd]
    have hviol : asym_violated (ensure_node (ensure_node net b) a) b a
        (-d.1, -d.2) = true := by
      unfold asym_violated
      rw [Bool.or_eq_true]
      right
      rw [lookupOut_double_ensure]
      simp only [List.any_eq_true, decide_eq_true_eq]
      exact ⟨(d, b), hmem, by simp⟩
    simp [hviol]

/-- Concrete network holding the single segment `(0,0) → (1,0)`. -/
def netSeg : Network :=
  (add_segment { outgoing := [], incoming := [] } ((0, 0), (1, 0))).1

theorem add_duplicate_or_reverse_fails_witness :
    (add_segment netSeg ((0, 0), (1, 0))).2 = some AddError.duplicateEdge ∧
    (add_segment netSeg ((1, 0), (0, 0))).2 = some AddError.duplicateEdge :=
  add_duplicate_or_reverse_fails netSeg (0, 0) (1, 0) (1, 0)
    (by rw [get_unit_vector]; norm_num) (by decide)

end Net

namespace Net

/-- C8: after gate derivation, a node is an entry gate iff it has exactly one
outgoing edge and zero incoming edges, and an exit gate iff it has exactly one
incoming edge and zero outgoing edges; no other node is classified as a gate.
Degrees are read off the two adjacency dicts, with absent keys counting as
empty. -/
theorem gates_characterization (net : Network) (n : Node) :
    (n ∈ entry_gates net ↔
      (lookupOut net n).length = 1 ∧ (lookupIn net n).length = 0) ∧
    (n ∈ exit_gates net ↔
      (lookupIn net n).length = 1 ∧ (lookupOut net n).length = 0) := by
  constructor
  · unfold entry_gates
    rw [List.mem_filter]
    simp only [Bool.and_eq_true, decide_eq_true_eq]
    constructor
    · exact fun h => h.2
    · intro h
      refine ⟨?_, h⟩
      apply mem_keys_out_of_lookup_ne_nil
      intro hnil
      rw [hnil] at h
      simp at h
  · unfold exit_gates
    rw [List.mem_filter]
    simp only [Bool.and_eq_true, decide_eq_true_eq]
    constructor
    · exact fun h => h.2
    · intro h
      refine ⟨?_, h⟩
      apply mem_keys_in_of_lookup_ne_nil
      intro hnil
      rw [hnil] at h
      simp at h

end Net

namespace Net

lemma get_unit_vector_ne_dup (s : Segment) :
    get_unit_vector s ≠ .error .duplicateEdge := by
  unfold get_unit_vector
  by_cases h0 : s.2.1 - s.1.1 = 0 ∧ s.2.2 - s.1.2 = 0
  · rw [if_pos h0]
    simp
  · rw [if_neg h0]
    by_cases h1 : s.2.1 - s.1.1 ≠ 0 ∧ s.2.2 - s.1.2 ≠ 0
    · rw [if_pos h1]
      simp
    · rw [if_neg h1]
      simp

lemma add_segment_dup_state {net : Network} {s : Segment}
    (h : (add_segment net s).2 = some AddError.duplicateEdge) :
    (add_segment net s).1 = ensure_node (ensure_node net s.1) s.2 := by
  unfold add_segment at h ⊢
  rcases hg : get_unit_vector s with e | d
  · rw [hg] at h
    dsimp only at h
    rw [Option.some_inj] at h
    subst h
    exact absurd hg (get_unit_vector_ne_dup s)
  · rw [hg] at h
    dsimp only at h ⊢
    by_cases hv : asym_violated (ensure_node (ensure_node net s.1) s.2) s.1 s.2 d = true
    · simp [hv]
    · simp [hv] at h

/-- C10: when `_add_segment` raises the duplicate-edge (asymmetry) error, no
edge is appended to either adjacency dict — every node keeps its exact
adjacency lists — but the operation is not atomic on the node set: each
endpoint of the rejected segment becomes (or stays) a key of both dicts, and
an endpoint that was not previously a key ends up with empty adjacency. -/
theorem add_segment_failure_state (net : Network) (s : Segment) (n : Node)
    (h : (add_segment net s).2 = some AddError.duplicateEdge) :
    lookupOut (add_segment net s).1 n = lookupOut net n ∧
    lookupIn (add_segment net s).1 n = lookupIn net n ∧
    (n ∈ keys (add_segment net s).1.outgoing ↔
      n ∈ keys net.outgoing ∨ n = s.1 ∨ n = s.2) ∧
    (n ∈ keys (add_segment net s).1.incoming ↔
      n ∈ keys net.incoming ∨ n = s.1 ∨ n = s.2) := by
  rw [add_segment_dup_state h]
  refine ⟨?_, ?_, ?_, ?_⟩
  · rw [lookupOut_ensure_node, lookupOut_ensure_node]
  · rw [lookupIn_ensure_node, lookupIn_ensure_node]
  · rw [keys_out_ensure_node, keys_out_ensure_node, or_assoc]
  · rw [keys_in_ensure_node, keys_in_ensure_node, or_assoc]

theorem add_segment_failure_state_witness :
    (add_segment netSeg ((0, 0), (2, 0))).2 = some AddError.duplicateEdge ∧
    ((2, 0) ∉ keys netSeg.outgoing ∧
     lookupOut (add_segment netSeg ((0, 0), (2, 0))).1 (2, 0) = [] ∧
     ((2, 0) : Node) ∈ keys (add_segment netSeg ((0, 0), (2, 0))).1.outgoing ∧
     lookupOut (add_segment netSeg ((0, 0), (2, 0))).1 (0, 0) =
       lookupOut netSeg (0, 0)) := by
  have hdup : (add_segment netSeg ((0, 0), (2, 0))).2 =
      some AddError.duplicateEdge := by decide
  have hmain := add_segment_failure_state netSeg ((0, 0), (2, 0)) (2, 0) hdup
  have hmain0 := add_segment_failure_state netSeg ((0, 0), (2, 0)) (0, 0) hdup
  refine ⟨hdup, by decide, ?_, ?_, hmain0.1⟩
  · rw [hmain.1]
    exact lookupOut_eq_nil_of_not_mem (by decide)
  · rw [hmain.2.2.1]
    exact Or.inr (Or.inr rfl)

end Net

namespace Net

lemma convert_out_append (l₁ l₂ : List (Node × List (Dir × Node))) :
    convert_out (l₁ ++ l₂) = convert_out l₁ ++ convert_out l₂ := by
  induction l₁ with
  | nil => rfl
  | cons p rest ih => simp [convert_out, ih]

lemma convert_ensure_node (net : Network) (n : Node) :
    convert_to_segments (ensure_node net n) = convert_to_segments net := by
  unfold convert_to_segments ensure_node
  by_cases h : net.outgoing.any (fun p => decide (p.1 = n)) = true
  · rw [if_pos h]
  · rw [if_neg h, convert_out_append]
    simp [convert_out]

lemma convert_update_out (n : Node) (e : Dir × Node) :
    ∀ (l : List (Node × List (Dir × Node))), n ∈ keys l →
      (convert_out (update_out l n e)).Perm ((n, e.2) :: convert_out l)
  | [], h => by simp [keys] at h
  | p :: rest, h => by
      by_cases hp : p.1 = n
      · rw [update_out, if_pos hp]
        subst hp
        simp only [convert_out, List.map_append, List.map_cons, List.map_nil,
          List.append_assoc, List.singleton_append]
        exact List.perm_middle
      · rw [update_out, if_neg hp]
        have hrest : n ∈ keys rest := by
          simp only [keys, List.map_cons, List.mem_cons] at h
          rcases h with hc | hc
          · exact absurd hc.symm hp
          · exact hc
        have ih := convert_update_out n e rest hrest
        simp only [convert_out]
        exact (List.Perm.append_left _ ih).trans List.perm_middle

lemma keys_out_double_ensure_left (net : Network) (x y : Node) :
    x ∈ keys (ensure_node (ensure_node net x) y).outgoing := by
  rw [keys_out_ensure_node, keys_out_ensure_node]
  exact Or.inl (Or.inr rfl)

lemma build_aux_perm :
    ∀ (segs : List Segment) (net net' : Network),
      build_aux net segs = some net' →
      (convert_to_segments net').Perm (convert_to_segments net ++ segs)
  | [], net, net', h => by
      rw [build_aux, Option.some_inj] at h
      subst h
      simp
  | s :: rest, net, net', h => by
      rw [build_aux] at h
      rcases hadd : add_segment net s with ⟨net1, err⟩
      rw [hadd] at h
      rcases err with _ | e
      · have ih := build_aux_perm rest net1 net' h
        unfold add_segment at hadd
        rcases hg : get_unit_vector s with ge | d
        · rw [hg] at hadd
          exact absurd hadd (by simp)
        · rw [hg] at hadd
          dsimp only at hadd
          by_cases hv : asym_violated (ensure_node (ensure_node net s.1) s.2)
              s.1 s.2 d = true
          · rw [if_pos hv] at hadd
            exact absurd hadd (by simp)
          · rw [if_neg hv] at hadd
            rw [Prod.mk.injEq] at hadd
            obtain ⟨hnet1, -⟩ := hadd
            have hkey : s.1 ∈ keys (ensure_node (ensure_node net s.1) s.2).outgoing :=
              keys_out_double_ensure_left net s.1 s.2
            have hperm1 : (convert_to_segments net1).Perm
                ((s.1, s.2) :: convert_to_segments
                  (ensure_node (ensure_node net s.1) s.2)) := by
              rw [← hnet1]
              exact convert_update_out s.1 (d, s.2) _ hkey
            rw [convert_ensure_node, convert_ensure_node] at hperm1
            have hperm2 : (convert_to_segments net1 ++ rest).Perm
                (convert_to_segments net ++ s :: rest) :=
              (hperm1.append_right rest).trans List.perm_middle.symm
            exact ih.trans hperm2
      · exact absurd h (by simp)

/-- C6: if the explicit-segment builder accepts a segment list (every
`_add_segment` call succeeds), converting the resulting graph back to segments
yields exactly the input list up to order. -/
theorem convert_to_segments_roundtrip (segs : List Segment) (net : Network)
    (h : build_network segs = some net) :
    (convert_to_segments net).Perm segs := by
  have := build_aux_perm segs { outgoing := [], incoming := [] } net h
  simpa [convert_to_segments, convert_out] using this

/-- Concrete two-segment network for the round-trip witness. -/
def netRT : Network :=
  (build_network [((0, 0), (1, 0)), ((1, 0), (1, 1))]).getD
    { outgoing := [], incoming := [] }

theorem convert_to_segments_roundtrip_witness :
    (convert_to_segments netRT).Perm [((0, 0), (1, 0)), ((1, 0), (1, 1))] :=
  convert_to_segments_roundtrip [((0, 0), (1, 0)), ((1, 0), (1, 1))] netRT
    (by decide)

end Net

namespace Net

/-- Orientation tag passed to `_check_adjacent_overlap`. -/
inductive Orientation where
  | horizontal
  | vertical
deriving DecidableEq, Repr

/-- The pair `(fixed_axis, main_axis)` selected from the orientation, as in
`(1, 0) if orientation == horizontal else (0, 1)`. -/
def axes : Orientation → ℕ × ℕ
  | .horizontal => (1, 0)
  | .vertical => (0, 1)

/-- Tuple indexing `point[i]` on a lattice point. -/
def coordAt (i : ℕ) (p : Node) : ℤ := if i = 0 then p.1 else p.2

/-- Comparison on the sort key `line[0][main_axis]` used by
`sorted(segments, key=...)`. -/
def segLe (main : ℕ) (s t : Segment) : Prop :=
  coordAt main s.1 ≤ coordAt main t.1

instance segLe_dec (main : ℕ) : DecidableRel (segLe main) :=
  fun s t => inferInstanceAs (Decidable (coordAt main s.1 ≤ coordAt main t.1))

instance segLe_total (main : ℕ) : IsTotal Segment (segLe main) :=
  ⟨fun _ _ => le_total _ _⟩

instance segLe_trans (main : ℕ) : IsTrans Segment (segLe main) :=
  ⟨fun _ _ _ hab hbc => le_trans hab hbc⟩

/-- Failure condition of `_check_adjacent_overlap` for one adjacent pair: the
start nodes share the fixed coordinate and
`(A_start < B_end and B_start < A_end) or (A_start == B_start and A_end == B_end)`
holds for the main-axis coordinates. -/
def adjacent_bad (fixed main : ℕ) (a b : Segment) : Prop :=
  coordAt fixed a.1 = coordAt fixed b.1 ∧
  ((coordAt main a.1 < coordAt main b.2 ∧ coordAt main b.1 < coordAt main a.2) ∨
   (coordAt main a.1 = coordAt main b.1 ∧ coordAt main a.2 = coordAt main b.2))

instance adjacent_bad_dec (fixed main : ℕ) (a b : Segment) :
    Decidable (adjacent_bad fixed main a b) := by
  unfold adjacent_bad
  infer_instance

/-- Loop of `_check_adjacent_overlap` over the sorted list: returns the first
offending adjacent pair (the raised error), or `none`. -/
def check_pairs (fixed main : ℕ) : List Segment → Option (Segment × Segment)
  | a :: b :: rest =>
      if adjacent_bad fixed main a b then some (a, b)
      else check_pairs fixed main (b :: rest)
  | _ => none

/-- Embeds `CustomRoadNetwork._check_adjacent_overlap`: sort by the start
node's main-axis coordinate, then compare adjacent pairs only. -/
def check_adjacent_overlap (segments : List Segment) (o : Orientation) :
    Option (Segment × Segment) :=
  check_pairs (axes o).1 (axes o).2
    (List.insertionSort (segLe (axes o).2) segments)

/-- Overlap notion of the specification: the ranges of the two segments on
the varying axis intersect in more than a single point (identical
non-degenerate ranges included). -/
def ranges_overlap (main : ℕ) (s t : Segment) : Prop :=
  min (coordAt main s.1) (coordAt main s.2) <
    max (coordAt main t.1) (coordAt main t.2) ∧
  min (coordAt main t.1) (coordAt main t.2) <
    max (coordAt main s.1) (coordAt main s.2)

instance ranges_overlap_dec (main : ℕ) (s t : Segment) :
    Decidable (ranges_overlap main s t) := by
  unfold ranges_overlap
  infer_instance

end Net

namespace Net

/-- C3 (counterexample): two concrete inputs on which collinear segments with
overlapping ranges escape the adjacent-pair overlap check.  First, a
reverse-directed horizontal segment (start right of end) overlapping a
forward one on the same line `y = 0`; second, three forward segments where a
segment on the parallel line `y = 1` sits between two overlapping segments of
line `y = 0` in sorted order, so the overlapping pair is never compared. -/
theorem overlap_check_misses_overlaps :
    (ranges_overlap 0 ((10, 0), (0, 0)) ((5, 0), (15, 0)) ∧
     coordAt 1 (((10, 0), (0, 0)) : Segment).1 =
       coordAt 1 (((5, 0), (15, 0)) : Segment).1 ∧
     check_adjacent_overlap [((10, 0), (0, 0)), ((5, 0), (15, 0))]
       Orientation.horizontal = none) ∧
    (ranges_overlap 0 ((0, 0), (10, 0)) ((5, 0), (15, 0)) ∧
     coordAt 1 (((0, 0), (10, 0)) : Segment).1 =
       coordAt 1 (((5, 0), (15, 0)) : Segment).1 ∧
     check_adjacent_overlap
       [((0, 0), (10, 0)), ((2, 1), (12, 1)), ((5, 0), (15, 0))]
       Orientation.horizontal = none) := by
  decide

lemma check_pairs_eq_none_iff (fixed main : ℕ) :
    ∀ l : List Segment, check_pairs fixed main l = none ↔
      l.Chain' (fun a b => ¬ adjacent_bad fixed main a b)
  | [] => by simp [check_pairs]
  | [a] => by simp [check_pairs]
  | a :: b :: rest => by
      by_cases hab : adjacent_bad fixed main a b
      · simp [check_pairs, hab]
      · rw [List.chain'_cons]
        simp [check_pairs, hab, check_pairs_eq_none_iff fixed main (b :: rest)]

lemma chain_sep_all (main : ℕ) :
    ∀ (rest : List Segment) (a : Segment),
      (∀ s ∈ rest, coordAt main s.1 < coordAt main s.2) →
      List.Chain' (fun x y => coordAt main x.2 ≤ coordAt main y.1) (a :: rest) →
      ∀ b ∈ rest, coordAt main a.2 ≤ coordAt main b.1
  | [], _, _, _, b, hb => absurd hb (List.not_mem_nil b)
  | c :: rest, a, hnorm, hch, b, hb => by
      rw [List.chain'_cons] at hch
      rcases List.mem_cons.mp hb with rfl | hb'
      · exact hch.1
      · have hrec := chain_sep_all main rest c
          (fun s hs => hnorm s (List.mem_cons_of_mem c hs)) hch.2 b hb'
        have hc := hnorm c (List.mem_cons_self c rest)
        omega

lemma chain_sep_pairwise (main : ℕ) :
    ∀ (l : List Segment),
      (∀ s ∈ l, coordAt main s.1 < coordAt main s.2) →
      List.Chain' (fun x y => coordAt main x.2 ≤ coordAt main y.1) l →
      List.Pairwise (fun x y => coordAt main x.2 ≤ coordAt main y.1) l
  | [], _, _ => List.Pairwise.nil
  | a :: rest, hnorm, hch => by
      rw [List.pairwise_cons]
      refine ⟨chain_sep_all main rest a
        (fun s hs => hnorm s (List.mem_cons_of_mem a hs)) hch, ?_⟩
      exact chain_sep_pairwise main rest
        (fun s hs => hnorm s (List.mem_cons_of_mem a hs)) hch.tail

lemma chain_neg_bad_sep (fixed main : ℕ) (c0 : ℤ) :
    ∀ l : List Segment,
      (∀ s ∈ l, coordAt fixed s.1 = c0) →
      (∀ s ∈ l, coordAt main s.1 < coordAt main s.2) →
      List.Chain' (segLe main) l →
      List.Chain' (fun a b => ¬ adjacent_bad fixed main a b) l →
      List.Chain' (fun x y => coordAt main x.2 ≤ coordAt main y.1) l
  | [], _, _, _, _ => List.chain'_nil
  | [a], _, _, _, _ => List.chain'_singleton a
  | a :: b :: rest, hline, hnorm, hs, hbad => by
      rw [List.chain'_cons] at hs hbad ⊢
      refine ⟨?_, chain_neg_bad_sep fixed main c0 (b :: rest)
        (fun s hs' => hline s (List.mem_cons_of_mem a hs'))
        (fun s hs' => hnorm s (List.mem_cons_of_mem a hs'))
        hs.2 hbad.2⟩
      have hfa := hline a (List.mem_cons_self a (b :: rest))
      have hfb := hline b (List.mem_cons_of_mem a (List.mem_cons_self b rest))
      have hna := hnorm a (List.mem_cons_self a (b :: rest))
      have hnb := hnorm b (List.mem_cons_of_mem a (List.mem_cons_self b rest))
      have hkey : segLe main a b := hs.1
      unfold segLe at hkey
      by_contra hcon
      push_neg at hcon
      exact hbad.1 ⟨by omega, Or.inl ⟨by omega, by omega⟩⟩

lemma adjacent_bad_of_overlap (fixed main : ℕ) {a b : Segment}
    (hna : coordAt main a.1 < coordAt main a.2)
    (hov : adjacent_bad fixed main a b) : ranges_overlap main a b := by
  obtain ⟨-, hcase⟩ := hov
  have h1 := min_le_left (coordAt main a.1) (coordAt main a.2)
  have h2 := min_le_left (coordAt main b.1) (coordAt main b.2)
  have h3 := le_max_right (coordAt main a.1) (coordAt main a.2)
  have h4 := le_max_right (coordAt main b.1) (coordAt main b.2)
  rcases hcase with ⟨hc1, hc2⟩ | ⟨hc1, hc2⟩
  · exact ⟨by omega, by omega⟩
  · exact ⟨by omega, by omega⟩

/-- C3 (amended): restricted to segments that all lie on the same line (equal
fixed start coordinate) and are all forward-directed on the varying axis
(start strictly before end), the adjacent-pair check fails iff some pair of
the input segments has overlapping ranges; in particular segments sharing
only an endpoint never make it fail.  Outside this restriction the check can
miss overlapping pairs (see the counterexample). -/
theorem overlap_check_same_line_forward_iff (o : Orientation)
    (segs : List Segment) (c0 : ℤ)
    (hline : ∀ s ∈ segs, coordAt (axes o).1 s.1 = c0)
    (hnorm : ∀ s ∈ segs, coordAt (axes o).2 s.1 < coordAt (axes o).2 s.2) :
    check_adjacent_overlap segs o = none ↔
      segs.Pairwise (fun a b => ¬ ranges_overlap (axes o).2 a b) := by
  unfold check_adjacent_overlap
  rw [check_pairs_eq_none_iff]
  have hperm : (List.insertionSort (segLe (axes o).2) segs).Perm segs :=
    List.perm_insertionSort _ _
  have hsorted : List.Sorted (segLe (axes o).2)
      (List.insertionSort (segLe (axes o).2) segs) :=
    List.sorted_insertionSort _ _
  have hline' : ∀ s ∈ List.insertionSort (segLe (axes o).2) segs,
      coordAt (axes o).1 s.1 = c0 :=
    fun s hs => hline s (hperm.mem_iff.mp hs)
  have hnorm' : ∀ s ∈ List.insertionSort (segLe (axes o).2) segs,
      coordAt (axes o).2 s.1 < coordAt (axes o).2 s.2 :=
    fun s hs => hnorm s (hperm.mem_iff.mp hs)
  rw [← hperm.pairwise_iff (fun {a b} hab hba => hab ⟨hba.2, hba.1⟩)]
  constructor
  · intro hch
    have hsep := chain_neg_bad_sep (axes o).1 (axes o).2 c0 _ hline' hnorm'
      hsorted.chain' hch
    have hpw := chain_sep_pairwise (axes o).2 _ hnorm' hsep
    refine hpw.imp_of_mem ?_
    intro a b ha hb hsepab hov
    have hna := hnorm' a ha
    have hnb := hnorm' b hb
    have h2 := hov.2
    rw [min_eq_left (le_of_lt hnb), max_eq_right (le_of_lt hna)] at h2
    omega
  · intro hpw
    have hpw' : (List.insertionSort (segLe (axes o).2) segs).Pairwise
        (fun a b => ¬ adjacent_bad (axes o).1 (axes o).2 a b) := by
      refine hpw.imp_of_mem ?_
      intro a b ha hb hno hbad
      exact hno (adjacent_bad_of_overlap (axes o).1 (axes o).2
        (hnorm' a ha) hbad)
    exact hpw'.chain'

theorem overlap_check_same_line_forward_iff_witness :
    check_adjacent_overlap [((0, 0), (4, 0)), ((4, 0), (8, 0))]
      Orientation.horizontal = none :=
  (overlap_check_same_line_forward_iff Orientation.horizontal
    [((0, 0), (4, 0)), ((4, 0), (8, 0))] 0 (by decide) (by decide)).mpr
    (by decide)

end Net

namespace Sim

/-- Euclidean norm of a 2-vector, `numpy.linalg.norm`. -/
noncomputable def vnorm (v : ℝ × ℝ) : ℝ := Real.sqrt (v.1 ^ 2 + v.2 ^ 2)

/-- A `Car`: unique id (standing in for Python object identity), randomly
drawn `max_speed`, and current position.  The display color is irrelevant to
movement and omitted. -/
structure Car where
  id : ℕ
  max_speed : ℝ
  position : ℝ × ℝ

/-- A `Road`: segment endpoints, unit direction, clearance, and the deque of
cars, the front of the deque (nearest the exit) at the head of the list. -/
structure Road where
  startnode : ℝ × ℝ
  endnode : ℝ × ℝ
  direction : ℝ × ℝ
  clearance : ℝ
  cars : List Car

/-- The precomputed stop line `endnode - clearance * direction` of `Road`. -/
noncomputable def Road.stop_line (r : Road) : ℝ × ℝ :=
  r.endnode - r.clearance • r.direction

/-- Embeds `Road.distance_to_endnode`. -/
noncomputable def Road.distance_to_endnode (r : Road) (p : ℝ × ℝ) : ℝ :=
  vnorm (p - r.endnode)

/-- Embeds `MapManager._max_speed`: bounded by the distance to the end node,
and, when a car is in front, by `max(0, distance_to_front - clearance)`. -/
noncomputable def max_speed_calc (min_clearance : ℝ) (car : Car)
    (car_in_front : Option Car) (road : Road) : ℝ :=
  let dist_to_end := vnorm (road.endnode - car.position)
  match car_in_front with
  | some f =>
      let dist_to_car_infront := vnorm (f.position - car.position)
      let max_movement :=
        max 0 (min (dist_to_car_infront - min_clearance) car.max_speed)
      min dist_to_end max_movement
  | none => min dist_to_end car.max_speed

open Classical in
/-- One car's movement inside the `move_cars` loop: compute the bounded speed
and candidate position, then clamp to the stop line when the candidate is
within clearance of the end node and the connected intersection denies
approach; `can_approach` is passed in as the intersection's verdict. -/
noncomputable def move_car_step (min_clearance : ℝ) (road : Road)
    (can_approach : Car → Bool) (car_in_front : Option Car) (car : Car) : Car :=
  let ms := max_speed_calc min_clearance car car_in_front road
  let max_position := car.position + ms • road.direction
  if road.distance_to_endnode max_position ≤ min_clearance ∧
      can_approach car = false then
    { car with position := road.stop_line }
  else
    { car with position := max_position }

/-- The `move_cars` loop over one road's deque copy: the copy fixes which car
object is "in front" of which, but positions are read from the live objects,
so each car sees its front car's already-updated state; the updated car is
therefore threaded through as the next car's front. -/
noncomputable def move_cars_aux (min_clearance : ℝ) (road : Road)
    (can_approach : Car → Bool) : Option Car → List Car → List Car
  | _, [] => []
  | front, car :: rest =>
      let car' := move_car_step min_clearance road can_approach front car
      car' :: move_cars_aux min_clearance road can_approach (some car') rest

/-- Per-road car movement of one tick of `MapManager.move_cars`. -/
noncomputable def move_road_cars (min_clearance : ℝ) (road : Road)
    (can_approach : Car → Bool) : List Car :=
  move_cars_aux min_clearance road can_approach none road.cars

/-- Per-road movement as worded by the specification: each car's front
reference is resolved in an immutable snapshot of the queue taken before any
car on this road moves this tick, so the front position read is the
pre-tick one. -/
noncomputable def move_road_cars_snapshot (min_clearance : ℝ) (road : Road)
    (can_approach : Car → Bool) : List Car :=
  List.zipWith (move_car_step min_clearance road can_approach)
    ((none : Option Car) :: road.cars.map some) road.cars

/-- An `Intersection`: position, connected roads, and clearance. -/
structure Intersection where
  position : ℝ × ℝ
  incoming_roads : List Road
  outgoing_roads : List Road
  min_clearance : ℝ

/-- Embeds `Intersection.distance_to_car`. -/
noncomputable def Intersection.distance_to_car (I : Intersection) (car : Car) :
    ℝ :=
  vnorm (car.position - I.position)

open Classical in
/-- Embeds `Intersection.closest_incoming_car`: scan the front car of every
incoming road, keeping a strictly closer one, starting from the priority
car (ties therefore resolve to the earlier candidate). -/
noncomputable def Intersection.closest_incoming_car (I : Intersection)
    (priority_car : Car) : Car :=
  (I.incoming_roads.foldl
    (fun acc road =>
      match road.cars with
      | [] => acc
      | c :: _ =>
          if I.distance_to_car c < acc.2 then (c, I.distance_to_car c) else acc)
    (priority_car, I.distance_to_car priority_car)).1

open Classical in
/-- Embeds `Intersection.closest_outgoing_car`: scan the back car of every
non-empty outgoing road, keeping the strictly closest; `none` when all
outgoing roads are empty. -/
noncomputable def Intersection.closest_outgoing_car (I : Intersection) :
    Option Car :=
  (I.outgoing_roads.foldl
    (fun acc road =>
      match road.cars.getLast? with
      | none => acc
      | some c =>
          match acc with
          | none => some (c, I.distance_to_car c)
          | some pm =>
              if I.distance_to_car c < pm.2 then (c, I.distance_to_car c)
              else pm)
    none).map Prod.fst

open Classical in
/-- Embeds `Intersection.can_approach`: deny when the closest outgoing car is
strictly within the clearance of the intersection; deny when the calling car
is not the closest incoming car (object identity modelled by value
equality); permit otherwise. -/
noncomputable def Intersection.can_approach (I : Intersection) (car : Car) :
    Bool :=
  match I.closest_outgoing_car with
  | some closest =>
      if I.distance_to_car closest < I.min_clearance then false
      else if car ≠ I.closest_incoming_car car then false
      else true
  | none =>
      if car ≠ I.closest_incoming_car car then false
      else true

end Sim

namespace Sim

lemma vnorm_horizontal (x : ℝ) : vnorm (x, 0) = |x| := by
  unfold vnorm
  simp [Real.sqrt_sq_eq_abs]

/-- C4: for a vehicle that is the closest incoming vehicle of an
intersection, `can_approach` permits it exactly when every closest outgoing
car is at distance at least the clearance: strictly closer is denied,
exactly at clearance or farther is permitted. -/
theorem can_approach_clearance_boundary (I : Intersection) (car : Car)
    (h : I.closest_incoming_car car = car) :
    I.can_approach car = true ↔
      ∀ c, I.closest_outgoing_car = some c →
        I.min_clearance ≤ I.distance_to_car c := by
  have hne : ¬ (car ≠ I.closest_incoming_car car) := by
    rw [h]
    exact fun hc => hc rfl
  unfold Intersection.can_approach
  rcases hco : I.closest_outgoing_car with _ | c
  · rw [if_neg hne]
    simp
  · dsimp only
    by_cases hlt : I.distance_to_car c < I.min_clearance
    · rw [if_pos hlt]
      constructor
      · intro hf
        exact absurd hf (by simp)
      · intro hall
        exact absurd (hall c rfl) (not_le.mpr hlt)
    · rw [if_neg hlt, if_neg hne]
      constructor
      · intro _ c' hc'
        rw [Option.some_inj] at hc'
        rw [← hc']
        exact not_lt.mp hlt
      · intro _
        rfl

/-- Priority car used in admission-control witnesses. -/
noncomputable def car0 : Car := ⟨1, 1, (-10, 0)⟩

/-- Outgoing car exactly at clearance distance 6. -/
noncomputable def car6 : Car := ⟨2, 1, (6, 0)⟩

/-- Outgoing car at distance 5.9999, strictly inside the clearance. -/
noncomputable def car59 : Car := ⟨3, 1, ((59999 : ℝ) / 10000, 0)⟩

/-- Intersection at the origin whose only outgoing car is `car6`. -/
noncomputable def inter6 : Intersection :=
  ⟨(0, 0), [], [⟨(0, 0), (100, 0), (1, 0), 6, [car6]⟩], 6⟩

/-- Intersection at the origin whose only outgoing car is `car59`. -/
noncomputable def inter59 : Intersection :=
  ⟨(0, 0), [], [⟨(0, 0), (100, 0), (1, 0), 6, [car59]⟩], 6⟩

lemma inter6_distance : inter6.distance_to_car car6 = 6 := by
  unfold Intersection.distance_to_car inter6 car6
  norm_num [Prod.mk_sub_mk, vnorm_horizontal]

lemma inter59_distance : inter59.distance_to_car car59 = (59999 : ℝ) / 10000 := by
  unfold Intersection.distance_to_car inter59 car59
  norm_num [Prod.mk_sub_mk, vnorm_horizontal]

theorem can_approach_clearance_boundary_witness :
    inter6.can_approach car0 = true ∧ inter59.can_approach car0 = false := by
  constructor
  · refine (can_approach_clearance_boundary inter6 car0 rfl).mpr ?_
    intro c hc
    rw [show inter6.closest_outgoing_car = some car6 from rfl,
      Option.some_inj] at hc
    rw [← hc, inter6_distance]
    show (6 : ℝ) ≤ 6
    norm_num
  · rw [Bool.eq_false_iff]
    intro htrue
    have := (can_approach_clearance_boundary inter59 car0 rfl).mp htrue car59 rfl
    rw [inter59_distance, show inter59.min_clearance = 6 from rfl] at this
    norm_num at this

end Sim

namespace Sim

lemma vnorm_horizontal_nonneg (x : ℝ) (h : 0 ≤ x) : vnorm (x, 0) = x := by
  rw [vnorm_horizontal]
  exact abs_of_nonneg h

lemma vnorm_zero : vnorm ((0 : ℝ), (0 : ℝ)) = 0 := by
  unfold vnorm
  norm_num

lemma max_speed_calc_none (c : ℝ) (car : Car) (road : Road) :
    max_speed_calc c car none road =
      min (vnorm (road.endnode - car.position)) car.max_speed := rfl

lemma max_speed_calc_some (c : ℝ) (car f : Car) (road : Road) :
    max_speed_calc c car (some f) road =
      min (vnorm (road.endnode - car.position))
        (max 0 (min (vnorm (f.position - car.position) - c) car.max_speed)) := rfl

lemma move_car_step_free (c : ℝ) (road : Road) (capp : Car → Bool)
    (front : Option Car) (car : Car) (hcapp : capp car = true) :
    move_car_step c road capp front car =
      { car with position :=
          car.position + (max_speed_calc c car front road) • road.direction } := by
  unfold move_car_step
  rw [if_neg]
  rintro ⟨-, hf⟩
  exact Bool.noConfusion (hcapp.symm.trans hf)

lemma move_car_step_clamped (c : ℝ) (road : Road) (capp : Car → Bool)
    (front : Option Car) (car : Car) (hcapp : capp car = false)
    (hclose : road.distance_to_endnode
      (car.position + (max_speed_calc c car front road) • road.direction) ≤ c) :
    move_car_step c road capp front car =
      { car with position := road.stop_line } := by
  unfold move_car_step
  rw [if_pos ⟨hclose, hcapp⟩]

/-- Front vehicle of the two-car end-to-end scenario: at `(10,0)`, top speed
10. -/
noncomputable def carA : Car := ⟨11, 10, (10, 0)⟩

/-- Rear vehicle of the two-car end-to-end scenario: at `(4,0)`, top speed
20. -/
noncomputable def carB : Car := ⟨12, 20, (4, 0)⟩

/-- Road `(0,0) → (100,0)` with clearance 6 holding `carA` (front) and
`carB` (behind). -/
noncomputable def roadAB : Road := ⟨(0, 0), (100, 0), (1, 0), 6, [carA, carB]⟩

lemma stepA : move_car_step 6 roadAB (fun _ => true) none carA =
    { carA with position := ((20 : ℝ), (0 : ℝ)) } := by
  have hsub : roadAB.endnode - carA.position = ((90 : ℝ), (0 : ℝ)) := by
    show ((100 : ℝ), (0 : ℝ)) - ((10 : ℝ), (0 : ℝ)) = _
    rw [Prod.mk_sub_mk]
    norm_num
  have hms : max_speed_calc 6 carA none roadAB = 10 := by
    rw [max_speed_calc_none, hsub, vnorm_horizontal_nonneg 90 (by norm_num)]
    show min (90 : ℝ) 10 = 10
    exact min_eq_right (by norm_num)
  rw [move_car_step_free 6 roadAB (fun _ => true) none carA rfl, hms]
  congr 1
  show ((10 : ℝ), (0 : ℝ)) + (10 : ℝ) • ((1 : ℝ), (0 : ℝ)) = ((20 : ℝ), (0 : ℝ))
  rw [Prod.smul_mk, Prod.mk_add_mk]
  norm_num

lemma stepB_live :
    move_car_step 6 roadAB (fun _ => true)
      (some { carA with position := ((20 : ℝ), (0 : ℝ)) }) carB =
    { carB with position := ((14 : ℝ), (0 : ℝ)) } := by
  have hsubE : roadAB.endnode - carB.position = ((96 : ℝ), (0 : ℝ)) := by
    show ((100 : ℝ), (0 : ℝ)) - ((4 : ℝ), (0 : ℝ)) = _
    rw [Prod.mk_sub_mk]
    norm_num
  have hsubF : ({ carA with position := ((20 : ℝ), (0 : ℝ)) } : Car).position -
      carB.position = ((16 : ℝ), (0 : ℝ)) := by
    show ((20 : ℝ), (0 : ℝ)) - ((4 : ℝ), (0 : ℝ)) = _
    rw [Prod.mk_sub_mk]
    norm_num
  have hms : max_speed_calc 6 carB
      (some { carA with position := ((20 : ℝ), (0 : ℝ)) }) roadAB = 10 := by
    rw [max_speed_calc_some, hsubE, hsubF,
      vnorm_horizontal_nonneg 96 (by norm_num),
      vnorm_horizontal_nonneg 16 (by norm_num)]
    show min (96 : ℝ) (max 0 (min (16 - 6) 20)) = 10
    rw [show (16 : ℝ) - 6 = 10 by norm_num,
      min_eq_left (by norm_num : (10 : ℝ) ≤ 20),
      max_eq_right (by norm_num : (0 : ℝ) ≤ 10)]
    exact min_eq_right (by norm_num)
  rw [move_car_step_free 6 roadAB (fun _ => true) _ carB rfl, hms]
  congr 1
  show ((4 : ℝ), (0 : ℝ)) + (10 : ℝ) • ((1 : ℝ), (0 : ℝ)) = ((14 : ℝ), (0 : ℝ))
  rw [Prod.smul_mk, Prod.mk_add_mk]
  norm_num

lemma stepB_snapshot :
    move_car_step 6 roadAB (fun _ => true) (some carA) carB =
    { carB with position := ((4 : ℝ), (0 : ℝ)) } := by
  have hsubE : roadAB.endnode - carB.position = ((96 : ℝ), (0 : ℝ)) := by
    show ((100 : ℝ), (0 : ℝ)) - ((4 : ℝ), (0 : ℝ)) = _
    rw [Prod.mk_sub_mk]
    norm_num
  have hsubF : carA.position - carB.position = ((6 : ℝ), (0 : ℝ)) := by
    show ((10 : ℝ), (0 : ℝ)) - ((4 : ℝ), (0 : ℝ)) = _
    rw [Prod.mk_sub_mk]
    norm_num
  have hms : max_speed_calc 6 carB (some carA) roadAB = 0 := by
    rw [max_speed_calc_some, hsubE, hsubF,
      vnorm_horizontal_nonneg 96 (by norm_num),
      vnorm_horizontal_nonneg 6 (by norm_num)]
    show min (96 : ℝ) (max 0 (min (6 - 6) 20)) = 0
    rw [show (6 : ℝ) - 6 = 0 by norm_num,
      min_eq_left (by norm_num : (0 : ℝ) ≤ 20),
      max_eq_left (by norm_num : (0 : ℝ) ≤ 0)]
    exact min_eq_right (by norm_num)
  rw [move_car_step_free 6 roadAB (fun _ => true) _ carB rfl, hms]
  congr 1
  show ((4 : ℝ), (0 : ℝ)) + (0 : ℝ) • ((1 : ℝ), (0 : ℝ)) = ((4 : ℝ), (0 : ℝ))
  rw [Prod.smul_mk, Prod.mk_add_mk]
  norm_num

lemma live_tick_AB :
    (move_road_cars 6 roadAB (fun _ => true)).map Car.position =
      [((20 : ℝ), (0 : ℝ)), ((14 : ℝ), (0 : ℝ))] := by
  unfold move_road_cars
  rw [show roadAB.cars = [carA, carB] from rfl]
  simp only [move_cars_aux]
  rw [stepA, stepB_live]
  rfl

lemma snapshot_tick_AB :
    (move_road_cars_snapshot 6 roadAB (fun _ => true)).map Car.position =
      [((20 : ℝ), (0 : ℝ)), ((4 : ℝ), (0 : ℝ))] := by
  unfold move_road_cars_snapshot
  rw [show roadAB.cars = [carA, carB] from rfl]
  simp only [List.map_cons, List.map_nil, List.zipWith]
  rw [stepA, stepB_snapshot]

end Sim

namespace Sim

lemma move_cars_aux_head (c : ℝ) (road : Road) (capp : Car → Bool)
    (front : Option Car) (l : List Car) :
    (move_cars_aux c road capp front l)[0]? =
      (l[0]?).map (move_car_step c road capp front) := by
  cases l <;> simp [move_cars_aux]

lemma move_cars_aux_get (c : ℝ) (road : Road) (capp : Car → Bool) :
    ∀ (l : List Car) (front : Option Car) (i : ℕ),
      (move_cars_aux c road capp front l)[i + 1]? =
        (l[i + 1]?).map
          (move_car_step c road capp ((move_cars_aux c road capp front l)[i]?))
  | [], front, i => by simp [move_cars_aux]
  | a :: rest, front, i => by
      simp only [move_cars_aux]
      cases i with
      | zero =>
          simp only [List.getElem?_cons_succ, List.getElem?_cons_zero]
          exact move_cars_aux_head c road capp
            (some (move_car_step c road capp front a)) rest
      | succ j =>
          simp only [List.getElem?_cons_succ]
          exact move_cars_aux_get c road capp rest
            (some (move_car_step c road capp front a)) j

/-- C1 (amended): within one tick of one road, the queue copy fixes only
which car is in front of which; the position a car's movement is computed
from is its front car's live position — i.e. the entry of the already-updated
output list — not the pre-tick snapshot position. -/
theorem move_front_position_is_live (c : ℝ) (road : Road)
    (capp : Car → Bool) (i : ℕ) :
    (move_road_cars c road capp)[i + 1]? =
      (road.cars[i + 1]?).map
        (move_car_step c road capp ((move_road_cars c road capp)[i]?)) :=
  move_cars_aux_get c road capp road.cars none i

/-- C1 (counterexample): on the road `(0,0) → (100,0)` with clearance 6,
vehicle A at `(10,0)` (top speed 10) in front and vehicle B at `(4,0)` (top
speed 20) behind, the tick produced by the code (live front positions) puts B
at `(14,0)`, while the snapshot semantics claimed by the spec would leave B
at `(4,0)`: the two disagree, so movement does use a front position already
advanced in the same tick. -/
theorem move_snapshot_counterexample :
    (move_road_cars 6 roadAB (fun _ => true)).map Car.position =
      [((20 : ℝ), (0 : ℝ)), ((14 : ℝ), (0 : ℝ))] ∧
    (move_road_cars_snapshot 6 roadAB (fun _ => true)).map Car.position =
      [((20 : ℝ), (0 : ℝ)), ((4 : ℝ), (0 : ℝ))] ∧
    move_road_cars 6 roadAB (fun _ => true) ≠
      move_road_cars_snapshot 6 roadAB (fun _ => true) := by
  refine ⟨live_tick_AB, snapshot_tick_AB, fun heq => ?_⟩
  have h1 := live_tick_AB
  rw [heq, snapshot_tick_AB] at h1
  simp only [List.cons.injEq, Prod.mk.injEq, and_true, true_and] at h1
  norm_num at h1

/-- C2: on the road `(0,0) → (100,0)` with clearance 6 and no intersection
contention, vehicle A at `(10,0)` with top speed 10 and vehicle B at `(4,0)`
with top speed 20 end the tick at `(20,0)` and `(14,0)` respectively. -/
theorem two_car_tick_positions :
    (move_road_cars 6 roadAB (fun _ => true)).map Car.position =
      [((20 : ℝ), (0 : ℝ)), ((14 : ℝ), (0 : ℝ))] :=
  live_tick_AB

end Sim

namespace Sim

lemma vnorm_zero_vec : vnorm (0 : ℝ × ℝ) = 0 := vnorm_zero

/-- Vehicle approaching the blocked intersection from `(90,0)` at top speed
10. -/
noncomputable def carC : Car := ⟨13, 10, (90, 0)⟩

/-- Road `(0,0) → (100,0)` with clearance 6 holding only `carC`. -/
noncomputable def roadC : Road := ⟨(0, 0), (100, 0), (1, 0), 6, [carC]⟩

lemma roadC_stop : roadC.stop_line = ((94 : ℝ), (0 : ℝ)) := by
  unfold Road.stop_line
  show ((100 : ℝ), (0 : ℝ)) - (6 : ℝ) • ((1 : ℝ), (0 : ℝ)) = _
  rw [Prod.smul_mk, Prod.mk_sub_mk]
  norm_num

/-- C5: a vehicle at `(90,0)` with top speed 10 on a road ending at `(100,0)`
with clearance 6, whose intersection denies admission, ends the tick exactly
at the stop line `(94,0)`. -/
theorem blocked_intersection_stop_line :
    (move_road_cars 6 roadC (fun _ => false)).map Car.position =
      [((94 : ℝ), (0 : ℝ))] := by
  have hsub : roadC.endnode - carC.position = ((10 : ℝ), (0 : ℝ)) := by
    show ((100 : ℝ), (0 : ℝ)) - ((90 : ℝ), (0 : ℝ)) = _
    rw [Prod.mk_sub_mk]
    norm_num
  have hms : max_speed_calc 6 carC none roadC = 10 := by
    rw [max_speed_calc_none, hsub, vnorm_horizontal_nonneg 10 (by norm_num)]
    show min (10 : ℝ) 10 = 10
    exact min_eq_right le_rfl
  have hpos : carC.position + (10 : ℝ) • roadC.direction = ((100 : ℝ), (0 : ℝ)) := by
    show ((90 : ℝ), (0 : ℝ)) + (10 : ℝ) • ((1 : ℝ), (0 : ℝ)) = _
    rw [Prod.smul_mk, Prod.mk_add_mk]
    norm_num
  have hdist : roadC.distance_to_endnode ((100 : ℝ), (0 : ℝ)) = 0 := by
    unfold Road.distance_to_endnode
    rw [show ((100 : ℝ), (0 : ℝ)) - roadC.endnode = ((0 : ℝ), (0 : ℝ)) from by
      show ((100 : ℝ), (0 : ℝ)) - ((100 : ℝ), (0 : ℝ)) = _
      rw [Prod.mk_sub_mk]
      norm_num]
    exact vnorm_zero
  have hstep := move_car_step_clamped 6 roadC (fun _ => false) none carC rfl
    (by rw [hms, hpos, hdist]; norm_num)
  unfold move_road_cars
  rw [show roadC.cars = [carC] from rfl]
  simp only [move_cars_aux]
  rw [hstep]
  simp only [List.map_cons, List.map_nil]
  rw [roadC_stop]

/-- C9: a vehicle whose position at the start of the tick already equals its
road's end node (left waiting there by an earlier tick) and whose
intersection denies admission is moved backward to the road's stop line: it
does not keep its position at the end node. -/
theorem denied_waiting_car_to_stop_line (c : ℝ) (road : Road)
    (capp : Car → Bool) (car : Car) (rest : List Car)
    (hcars : road.cars = car :: rest)
    (hpos : car.position = road.endnode)
    (hden : capp car = false)
    (hc : 0 ≤ c) (hs : 0 ≤ car.max_speed) :
    ((move_road_cars c road capp).map Car.position)[0]? =
      some road.stop_line := by
  have hms : max_speed_calc c car none road = 0 := by
    rw [max_speed_calc_none, hpos, sub_self, vnorm_zero_vec]
    exact min_eq_left hs
  have hmax : car.position + (0 : ℝ) • road.direction = road.endnode := by
    rw [zero_smul, add_zero, hpos]
  have hdist : road.distance_to_endnode road.endnode = 0 := by
    unfold Road.distance_to_endnode
    rw [sub_self, vnorm_zero_vec]
  have hstep := move_car_step_clamped c road capp none car hden
    (by rw [hms, hmax, hdist]; exact hc)
  unfold move_road_cars
  rw [hcars]
  simp only [move_cars_aux]
  rw [hstep]
  simp

/-- Vehicle left waiting exactly at the end node `(100,0)`. -/
noncomputable def carW : Car := ⟨14, 10, (100, 0)⟩

/-- Road `(0,0) → (100,0)` with clearance 6 holding only the waiting car. -/
noncomputable def roadW : Road := ⟨(0, 0), (100, 0), (1, 0), 6, [carW]⟩

theorem denied_waiting_car_to_stop_line_witness :
    ((move_road_cars 6 roadW (fun _ => false)).map Car.position)[0]? =
      some ((94 : ℝ), (0 : ℝ)) ∧
    ((94 : ℝ), (0 : ℝ)) ≠ ((100 : ℝ), (0 : ℝ)) := by
  constructor
  · have h := denied_waiting_car_to_stop_line 6 roadW (fun _ => false) carW []
      rfl rfl rfl (by norm_num) (by show (0 : ℝ) ≤ 10; norm_num)
    rw [h]
    rw [show roadW.stop_line = ((94 : ℝ), (0 : ℝ)) from by
      unfold Road.stop_line
      show ((100 : ℝ), (0 : ℝ)) - (6 : ℝ) • ((1 : ℝ), (0 : ℝ)) = _
      rw [Prod.smul_mk, Prod.mk_sub_mk]
      norm_num]
  · intro hcontra
    have := congrArg Prod.fst hcontra
    norm_num at this

end Sim
